import Mathlib

/-
Verification of the flash-sale reservation-and-commit pipeline.

Shallow embedding of:
  - internal/core/domain/order.go      (Order, RedisAdapter: the Lua
    decrement script, IncrementStock, SetIdempotency, SetStock)
  - internal/core/service/order_service.go (OrderService.Purchase, Close)
  - the MySQL adapter (CreateOrder, GetInventory, UpdateInventory)
  - cmd/server/main.go                 (workerLoop)

Redis state is modelled per item: the adapter addresses stock counters
as "stock:" ++ itemID, a bijection on item ids, so the map is keyed by
the item id directly.  Redis integer values and Go ints are modelled as
Int (the quantities involved never approach 2^63, so wrap-around is not
modelled).  Idempotency markers are modelled within their 24h lifetime
(expiry is not modelled; every claim about them is conditioned on the
marker still being alive).  The admission queue of the service is
modelled as the list of orders sent so far; the close semantics of the
Go channel are modelled separately by the Chan type.
-/

/-- Order status, from domain/order.go. -/
inductive OrderStatus where
  | pending
  | confirmed
  | cancelled
deriving DecidableEq

/-- An order, from domain/order.go (timestamps as abstract Nat instants). -/
structure Order where
  id : String
  userID : String
  itemID : String
  quantity : Int
  status : OrderStatus
  createdAt : Nat
  updatedAt : Nat
deriving DecidableEq

/-- Volatile Reservation Store state (the Redis data the adapter touches):
stock counter per item id (the adapter stores it at key "stock:" ++ itemID)
and the set of idempotency marker keys currently present. -/
structure CacheState where
  stock : String → Option Int
  idem : String → Bool

/-- The Lua script decrementStockScript run by RedisAdapter.DecrementStock:
GET the counter; missing key returns 0 (failure, nothing created);
if current >= quantity, DECRBY and return 1; else return 0. -/
def decrementStock (st : CacheState) (itemID : String) (quantity : Int) :
    Bool × CacheState :=
  match st.stock itemID with
  | none => (false, st)
  | some current =>
    if quantity ≤ current then
      (true, { st with
        stock := fun k => if k = itemID then some (current - quantity) else st.stock k })
    else
      (false, st)

/-- RedisAdapter.IncrementStock: unconditional INCRBY (Redis treats a
missing key as 0 and creates it). -/
def incrementStock (st : CacheState) (itemID : String) (quantity : Int) :
    CacheState :=
  { st with
    stock := fun k =>
      if k = itemID then some ((st.stock itemID).getD 0 + quantity)
      else st.stock k }

/-- RedisAdapter.SetIdempotency: SETNX with a 24h TTL; returns whether this
call created the key. -/
def setIdempotency (st : CacheState) (key : String) : Bool × CacheState :=
  if st.idem key then
    (false, st)
  else
    (true, { st with idem := fun k => if k = key then true else st.idem k })

/-- RedisAdapter.SetStock: unconditional overwrite of the stock counter. -/
def setStock (st : CacheState) (itemID : String) (quantity : Int) : CacheState :=
  { st with
    stock := fun k => if k = itemID then some quantity else st.stock k }

/-- Result of OrderService.Purchase (nil / ErrDuplicateRequest /
ErrInsufficientStock; store I/O errors are not modelled). -/
inductive PurchaseResult where
  | success
  | duplicateRequest
  | insufficientStock
deriving DecidableEq

/-- In-process state of OrderService: the cache and the orders sent to the
buffered order channel so far (in send order). -/
structure ServiceState where
  cache : CacheState
  queue : List Order

/-- OrderService.Purchase.  Strictly ordered steps: SetIdempotency on
"idempotency:" ++ requestID (already present means ErrDuplicateRequest);
DecrementStock (failure means ErrInsufficientStock); construct a pending
Order and send it on the queue.  The fresh uuid and the current time are
nondeterministic in the Go code and are passed in as freshID / now. -/
def purchase (st : ServiceState) (requestID userID itemID : String)
    (quantity : Int) (freshID : String) (now : Nat) :
    PurchaseResult × ServiceState :=
  let idempotencyKey := "idempotency:" ++ requestID
  let r1 := setIdempotency st.cache idempotencyKey
  if r1.fst = false then
    (.duplicateRequest, { st with cache := r1.snd })
  else
    let r2 := decrementStock r1.snd itemID quantity
    if r2.fst = false then
      (.insufficientStock, { st with cache := r2.snd })
    else
      let order : Order :=
        { id := freshID, userID := userID, itemID := itemID,
          quantity := quantity, status := .pending,
          createdAt := now, updatedAt := now }
      (.success, { cache := r2.snd, queue := st.queue ++ [order] })

/-- A durable inventory row: stock and optimistic-locking version. -/
structure InventoryRow where
  stock : Int
  version : Int
deriving DecidableEq

/-- domain.Inventory as handed to UpdateInventory (the fields it reads). -/
structure Inventory where
  itemID : String
  quantity : Int
  version : Int
deriving DecidableEq

/-- Durable Order Store state: order rows and the inventory relation. -/
structure DBState where
  orders : List Order
  inventory : String → Option InventoryRow

/-- The MySQL adapter's error (ErrOptimisticLock). -/
inductive DBError where
  | optimisticLock
deriving DecidableEq

/-- MySQLAdapter.CreateOrder: one transaction that inserts the order row,
then runs the guarded update
  UPDATE inventory SET stock = stock - q, version = version + 1
  WHERE item_id = ? AND stock >= q.
Zero affected rows (row absent, or stock < q) rolls the whole transaction
back — the inserted order row is discarded — and returns ErrOptimisticLock;
otherwise the transaction commits. -/
def createOrder (db : DBState) (o : Order) : Except DBError Unit × DBState :=
  match db.inventory o.itemID with
  | some inv =>
    if o.quantity ≤ inv.stock then
      (.ok (), { orders := db.orders ++ [o],
                 inventory := fun k =>
                   if k = o.itemID then
                     some { stock := inv.stock - o.quantity,
                            version := inv.version + 1 }
                   else db.inventory k })
    else
      (.error .optimisticLock, db)
  | none => (.error .optimisticLock, db)

/-- MySQLAdapter.GetInventory: point read; absent row is a non-error none. -/
def getInventory (db : DBState) (itemID : String) : Option Inventory :=
  match db.inventory itemID with
  | some row => some { itemID := itemID, quantity := row.stock, version := row.version }
  | none => none

/-- MySQLAdapter.UpdateInventory:
  UPDATE inventory SET stock = ?, version = version + 1
  WHERE item_id = ? AND version = ?.
Zero affected rows (row absent or stored version differs from the supplied
one) returns ErrOptimisticLock and changes nothing. -/
def updateInventory (db : DBState) (inv : Inventory) :
    Except DBError Unit × DBState :=
  match db.inventory inv.itemID with
  | some row =>
    if row.version = inv.version then
      (.ok (), { db with
        inventory := fun k =>
          if k = inv.itemID then
            some { stock := inv.quantity, version := row.version + 1 }
          else db.inventory k })
    else
      (.error .optimisticLock, db)
  | none => (.error .optimisticLock, db)

/-- One iteration of workerLoop (cmd/server/main.go): dequeue an order,
CreateOrder; on failure compensate once with IncrementStock of that
order's item and quantity. -/
def processOrder (db : DBState) (cache : CacheState) (o : Order) :
    DBState × CacheState :=
  match createOrder db o with
  | (.ok _, db2) => (db2, cache)
  | (.error _, db2) => (db2, incrementStock cache o.itemID o.quantity)

/-- workerLoop draining a (closed) queue: each dequeued order is processed
exactly once and never re-enqueued. -/
def workerLoop (db : DBState) (cache : CacheState) :
    List Order → DBState × CacheState
  | [] => (db, cache)
  | o :: rest =>
    let p := processOrder db cache o
    workerLoop p.fst p.snd rest

/-- A Go buffered channel of orders, as used for the order queue: its
buffered contents and whether close() has been called on it. -/
structure Chan where
  buffer : List Order
  closed : Bool
deriving DecidableEq

/-- A Go runtime panic relevant to the channel: closing a closed channel. -/
inductive GoPanic where
  | closeOfClosedChannel
deriving DecidableEq

/-- OrderService.Close runs close(s.orderQueue).  Go's close on an
already-closed channel panics. -/
def closeChan (c : Chan) : Except GoPanic Chan :=
  if c.closed then .error .closeOfClosedChannel
  else .ok { c with closed := true }

/-- What a consumer receiving from the channel observes. -/
inductive RecvResult where
  | item (o : Order)
  | endOfStream
  | blocked
deriving DecidableEq

/-- Go channel receive: a buffered item if any; on an empty closed channel
the zero value with ok = false (end of stream); on an empty open channel
the receiver blocks. -/
def recvChan (c : Chan) : RecvResult × Chan :=
  match c.buffer with
  | o :: rest => (.item o, { c with buffer := rest })
  | [] => if c.closed then (.endOfStream, c) else (.blocked, c)

/-- Running OrderService.Close twice in sequence. -/
def closeTwice (c : Chan) : Except GoPanic Chan :=
  match closeChan c with
  | .ok c1 => closeChan c1
  | .error p => .error p

/-- Sequentialisation of R purchase calls (one per request id, quantity 1,
request id reused as user id and fresh order id; time 0): any
interleaving of the calls linearises to such a sequence because the only
stock-touching step of each call is the single atomic decrement and the
idempotency keys of distinct requests are distinct. -/
def runPurchases (itemID : String) :
    ServiceState → List String → List PurchaseResult × ServiceState
  | st, [] => ([], st)
  | st, r :: rest =>
    let p := purchase st r r itemID 1 r 0
    let q := runPurchases itemID p.snd rest
    (p.fst :: q.fst, q.snd)

/-- Number of successful results. -/
def countSuccess : List PurchaseResult → Nat
  | [] => 0
  | .success :: rest => countSuccess rest + 1
  | _ :: rest => countSuccess rest

/-- An operation on the volatile stock counters: the guarded decrement or
the compensating increment. -/
inductive StockOp where
  | dec (itemID : String) (quantity : Int)
  | inc (itemID : String) (quantity : Int)
deriving DecidableEq

/-- The quantity carried by a stock operation. -/
def StockOp.qty : StockOp → Int
  | .dec _ q => q
  | .inc _ q => q

/-- Apply one stock operation to the cache. -/
def applyStockOp (st : CacheState) : StockOp → CacheState
  | .dec i q => (decrementStock st i q).snd
  | .inc i q => incrementStock st i q

/-- Apply a sequence of stock operations. -/
def applyStockOps (st : CacheState) (ops : List StockOp) : CacheState :=
  ops.foldl applyStockOp st

/-- Every present stock counter is non-negative. -/
def nonNegStock (st : CacheState) : Prop :=
  ∀ i v, st.stock i = some v → 0 ≤ v

/-! ### Helper lemmas -/

/-- The decrement script never touches the idempotency markers. -/
theorem decrementStock_idem_eq (st : CacheState) (i : String) (q : Int) :
    ((decrementStock st i q).snd).idem = st.idem := by
  unfold decrementStock
  split
  · rfl
  · split <;> rfl

/-- When the guard fails (short counter or absent key) the script leaves the
whole cache state unchanged. -/
theorem decrementStock_fail_state (st : CacheState) (i : String) (q : Int)
    (h : ¬ ∃ c, st.stock i = some c ∧ q ≤ c) :
    (decrementStock st i q).snd = st := by
  unfold decrementStock
  split
  · rfl
  · split
    · rename_i c hc hq
      exact absurd ⟨c, hc, hq⟩ h
    · rfl

/-- An already-present idempotency marker short-circuits Purchase with
ErrDuplicateRequest and no state change at all. -/
theorem purchase_marker_dup (st : ServiceState)
    (requestID userID itemID freshID : String) (q : Int) (now : Nat)
    (h : st.cache.idem ("idempotency:" ++ requestID) = true) :
    purchase st requestID userID itemID q freshID now = (.duplicateRequest, st) := by
  simp [purchase, setIdempotency, h]

/-- After any Purchase call, the idempotency marker of its request id is
present, whatever the outcome was. -/
theorem purchase_sets_marker (st : ServiceState)
    (requestID userID itemID freshID : String) (q : Int) (now : Nat) :
    (purchase st requestID userID itemID q freshID now).snd.cache.idem
      ("idempotency:" ++ requestID) = true := by
  cases h : st.cache.idem ("idempotency:" ++ requestID) with
  | true =>
    rw [purchase_marker_dup st requestID userID itemID freshID q now h]
    exact h
  | false =>
    unfold purchase
    simp only [setIdempotency, h]
    have hidem : ∀ st2 : CacheState,
        (decrementStock st2 itemID q).snd.idem = st2.idem :=
      fun st2 => decrementStock_idem_eq st2 itemID q
    split
    · simp_all
    · split
      · simp_all
      · split <;> simp [hidem]

/-! ### C3: the decrement script's contract -/

/-- C3: decrementStock(item, qty) succeeds and subtracts qty exactly when
the key exists with current value >= qty; with a short counter or an
absent key it fails and leaves the cache unchanged (in particular an
absent key is not created). -/
theorem decrementStock_contract (st : CacheState) (itemID : String) (q : Int) :
    (∀ c, st.stock itemID = some c → q ≤ c →
      decrementStock st itemID q =
        (true, { st with stock := fun k =>
          if k = itemID then some (c - q) else st.stock k })) ∧
    (∀ c, st.stock itemID = some c → c < q →
      decrementStock st itemID q = (false, st)) ∧
    (st.stock itemID = none →
      decrementStock st itemID q = (false, st) ∧
      (decrementStock st itemID q).snd.stock itemID = none) := by
  refine ⟨?_, ?_, ?_⟩
  · intro c hc hq
    simp [decrementStock, hc, hq]
  · intro c hc hq
    simp [decrementStock, hc, not_le.mpr hq]
  · intro hc
    refine ⟨by simp [decrementStock, hc], ?_⟩
    simp [decrementStock, hc]

/-- Concrete cache used by witnesses: item "iphone-15" holds 5 units, no
idempotency markers. -/
def cacheA : CacheState :=
  { stock := fun k => if k = "iphone-15" then some 5 else none,
    idem := fun _ => false }

/-- Witness for C3: both guard outcomes and the absent-key case at concrete
inputs. -/
theorem decrementStock_contract_witness :
    cacheA.stock "iphone-15" = some 5 ∧
    decrementStock cacheA "iphone-15" 3 =
      (true, { cacheA with stock := fun k =>
        if k = "iphone-15" then some (5 - 3) else cacheA.stock k }) ∧
    decrementStock cacheA "iphone-15" 9 = (false, cacheA) ∧
    cacheA.stock "sold-out" = none ∧
    decrementStock cacheA "sold-out" 1 = (false, cacheA) := by
  refine ⟨rfl, ?_, ?_, rfl, ?_⟩
  · exact (decrementStock_contract cacheA "iphone-15" 3).1 5 rfl (by decide)
  · exact (decrementStock_contract cacheA "iphone-15" 9).2.1 5 rfl (by decide)
  · exact ((decrementStock_contract cacheA "sold-out" 1).2.2 rfl).1

/-! ### C5: DuplicateRequest has no side effect -/

/-- C5: when the idempotency marker of the request is already present,
Purchase returns DuplicateRequest and the state is completely unchanged:
no stock counter changes, the queue is unchanged, and no decrement is
observable. -/
theorem purchase_duplicate_no_side_effect (st : ServiceState)
    (requestID userID itemID freshID : String) (q : Int) (now : Nat)
    (h : st.cache.idem ("idempotency:" ++ requestID) = true) :
    purchase st requestID userID itemID q freshID now = (.duplicateRequest, st) :=
  purchase_marker_dup st requestID userID itemID freshID q now h

/-- Cache with the marker of request "req-1" already present. -/
def cacheDup : CacheState :=
  { stock := fun k => if k = "iphone-15" then some 5 else none,
    idem := fun k => k == "idempotency:req-1" }

/-- Service state used by the C5 witness. -/
def svcDup : ServiceState := { cache := cacheDup, queue := [] }

/-- Witness for C5 at a concrete state with the marker present. -/
theorem purchase_duplicate_no_side_effect_witness :
    svcDup.cache.idem ("idempotency:" ++ "req-1") = true ∧
    purchase svcDup "req-1" "user-1" "iphone-15" 1 "oid-1" 0 =
      (.duplicateRequest, svcDup) := by
  refine ⟨by decide, ?_⟩
  exact purchase_duplicate_no_side_effect svcDup "req-1" "user-1" "iphone-15"
    "oid-1" 1 0 (by decide)

/-! ### C4: idempotence across two calls with the same request id -/

/-- C4: a second Purchase carrying the request id of any earlier completed
call (within the marker's lifetime, which the model assumes) returns
DuplicateRequest and changes nothing, whatever the first call's outcome
was — so success is yielded at most once per request id. -/
theorem purchase_idempotent (st : ServiceState)
    (requestID userID itemID freshID : String) (q : Int) (now : Nat)
    (userID2 itemID2 freshID2 : String) (q2 : Int) (now2 : Nat) :
    purchase (purchase st requestID userID itemID q freshID now).snd
        requestID userID2 itemID2 q2 freshID2 now2 =
      (.duplicateRequest, (purchase st requestID userID itemID q freshID now).snd) ∧
    (purchase (purchase st requestID userID itemID q freshID now).snd
        requestID userID2 itemID2 q2 freshID2 now2).fst ≠ .success := by
  have hm := purchase_sets_marker st requestID userID itemID freshID q now
  have hd := purchase_marker_dup (purchase st requestID userID itemID q freshID now).snd
    requestID userID2 itemID2 freshID2 q2 now2 hm
  exact ⟨hd, by rw [hd]; simp⟩

/-! ### C2: the counter never goes negative -/

/-- What the decrement script can do to any single counter: leave it as it
was, or (only when the guard held at item i and j = i) replace it by the
guarded difference. -/
theorem decrementStock_stock_cases (st : CacheState) (i : String) (q : Int)
    (j : String) :
    (decrementStock st i q).snd.stock j = st.stock j ∨
    (∃ c, st.stock i = some c ∧ q ≤ c ∧ j = i ∧
      (decrementStock st i q).snd.stock j = some (c - q)) := by
  unfold decrementStock
  split
  · exact Or.inl rfl
  · rename_i c hc
    split
    · rename_i hqc
      by_cases hj : j = i
      · exact Or.inr ⟨c, hc, hqc, hj, by simp [hj]⟩
      · exact Or.inl (by simp [hj])
    · exact Or.inl rfl

/-- IncrementStock pointwise: INCRBY touches only the addressed counter. -/
theorem incrementStock_stock (st : CacheState) (i : String) (q : Int)
    (j : String) :
    (incrementStock st i q).stock j =
      if j = i then some ((st.stock i).getD 0 + q) else st.stock j := rfl

/-- One guarded decrement or compensating increment with positive quantity
keeps every present counter non-negative. -/
theorem applyStockOp_nonneg (st : CacheState) (op : StockOp)
    (hq : 0 < op.qty) (h : nonNegStock st) :
    nonNegStock (applyStockOp st op) := by
  cases op with
  | dec i q =>
    intro j v hv
    have hchar := decrementStock_stock_cases st i q j
    rcases hchar with heq | ⟨c, hc, hqc, _, heq⟩
    · exact h j v (heq ▸ hv)
    · have hv2 : some (c - q) = some v := heq.symm.trans hv
      cases hv2
      omega
  | inc i q =>
    intro j v hv
    rw [show applyStockOp st (StockOp.inc i q) = incrementStock st i q from rfl,
      incrementStock_stock] at hv
    simp only [StockOp.qty] at hq
    by_cases hj : j = i
    · rw [if_pos hj] at hv
      cases hv
      cases hs : st.stock i with
      | none => simp [hs]; omega
      | some c =>
        have := h i c hs
        simp [hs]
        omega
    · rw [if_neg hj] at hv
      exact h j v hv

/-- C2: starting from non-negative counters, any sequence of decrementStock
and incrementStock operations with positive quantities keeps every counter
non-negative; moreover decrementStock never subtracts (leaves the cache
unchanged) unless the current value is at least the requested quantity. -/
theorem stock_never_negative (st : CacheState) (ops : List StockOp)
    (hpos : ∀ op ∈ ops, 0 < op.qty) (hst : nonNegStock st) :
    nonNegStock (applyStockOps st ops) ∧
    (∀ i q, ¬ (∃ c, st.stock i = some c ∧ q ≤ c) →
      (decrementStock st i q).snd = st) := by
  refine ⟨?_, fun i q h => decrementStock_fail_state st i q h⟩
  induction ops generalizing st with
  | nil => exact hst
  | cons op rest ih =>
    have h1 : nonNegStock (applyStockOp st op) :=
      applyStockOp_nonneg st op (hpos op (by simp)) hst
    exact ih (applyStockOp st op) (fun o ho => hpos o (by simp [ho])) h1

/-- Cache with every counter at 5, used by witnesses needing the
non-negativity hypothesis. -/
def cacheB : CacheState := { stock := fun _ => some 5, idem := fun _ => false }

/-- Every counter of cacheB is non-negative. -/
theorem cacheB_nonneg : nonNegStock cacheB := by
  intro i v h
  simp only [cacheB] at h
  cases h
  omega

/-- Witness for C2: a concrete sequence of positive-quantity operations,
including a decrement larger than the counter, applied to cacheB. -/
theorem stock_never_negative_witness :
    (∀ op ∈ [StockOp.dec "iphone-15" 2, StockOp.inc "iphone-15" 3,
             StockOp.dec "iphone-15" 99], 0 < op.qty) ∧
    nonNegStock (applyStockOps cacheB
      [StockOp.dec "iphone-15" 2, StockOp.inc "iphone-15" 3,
       StockOp.dec "iphone-15" 99]) := by
  refine ⟨by decide, ?_⟩
  exact (stock_never_negative cacheB
    [StockOp.dec "iphone-15" 2, StockOp.inc "iphone-15" 3,
     StockOp.dec "iphone-15" 99] (by decide) cacheB_nonneg).1

/-! ### C6: createOrder transaction atomicity -/

/-- C6: when the guarded inventory update affects zero rows (absent row or
durable stock below the quantity) CreateOrder fails with the optimistic-
lock error and the whole transaction is rolled back — the order row does
not persist and the inventory is unchanged; when the guard passes, the
order row persists and the item's row loses exactly the quantity while
its version grows by exactly 1 (other rows untouched). -/
theorem createOrder_atomic (db : DBState) (o : Order) :
    ((db.inventory o.itemID = none ∨
        ∃ inv, db.inventory o.itemID = some inv ∧ inv.stock < o.quantity) →
      createOrder db o = (.error .optimisticLock, db)) ∧
    (∀ inv, db.inventory o.itemID = some inv → o.quantity ≤ inv.stock →
      (createOrder db o).fst = .ok () ∧
      (createOrder db o).snd.orders = db.orders ++ [o] ∧
      (createOrder db o).snd.inventory o.itemID =
        some { stock := inv.stock - o.quantity, version := inv.version + 1 } ∧
      (∀ k, k ≠ o.itemID → (createOrder db o).snd.inventory k = db.inventory k)) := by
  constructor
  · rintro (hnone | ⟨inv, hinv, hlt⟩)
    · simp [createOrder, hnone]
    · simp [createOrder, hinv, not_le.mpr hlt]
  · intro inv hinv hle
    refine ⟨?_, ?_, ?_, ?_⟩
    · simp [createOrder, hinv, hle]
    · simp [createOrder, hinv, hle]
    · simp [createOrder, hinv, hle]
    · intro k hk
      simp [createOrder, hinv, hle, hk]

/-- Concrete durable store for witnesses: item "iphone-15" with stock 5 at
version 7, no order rows. -/
def dbA : DBState :=
  { orders := [],
    inventory := fun k =>
      if k = "iphone-15" then some { stock := 5, version := 7 } else none }

/-- A concrete order of quantity 3 for the stocked item. -/
def orderA : Order :=
  { id := "oid-1", userID := "user-1", itemID := "iphone-15", quantity := 3,
    status := .pending, createdAt := 0, updatedAt := 0 }

/-- The same purchase against an item missing from the durable store. -/
def orderMissing : Order :=
  { id := "oid-2", userID := "user-1", itemID := "ghost-item", quantity := 3,
    status := .pending, createdAt := 0, updatedAt := 0 }

/-- Witness for C6: the commit branch for a stocked item and the rollback
branch for an absent inventory row, at concrete inputs. -/
theorem createOrder_atomic_witness :
    dbA.inventory "iphone-15" = some { stock := 5, version := 7 } ∧
    (createOrder dbA orderA).fst = .ok () ∧
    (createOrder dbA orderA).snd.orders = [] ++ [orderA] ∧
    (createOrder dbA orderA).snd.inventory "iphone-15" =
      some { stock := 5 - 3, version := 7 + 1 } ∧
    dbA.inventory "ghost-item" = none ∧
    createOrder dbA orderMissing = (.error .optimisticLock, dbA) := by
  have hok := (createOrder_atomic dbA orderA).2 { stock := 5, version := 7 }
    rfl (by decide)
  have hfail := (createOrder_atomic dbA orderMissing).1 (Or.inl rfl)
  exact ⟨rfl, hok.1, hok.2.1, hok.2.2.1, rfl, hfail⟩

/-! ### C7: updateInventory compare-and-swap -/

/-- C7: UpdateInventory fails with the optimistic-lock error and changes
nothing whenever the stored version differs from the supplied one (or the
row is absent); when they match, the stored quantity becomes the supplied
quantity and the stored version grows by exactly 1 (other rows
untouched). -/
theorem updateInventory_cas (db : DBState) (inv : Inventory) :
    ((∀ row, db.inventory inv.itemID = some row → row.version ≠ inv.version) →
      updateInventory db inv = (.error .optimisticLock, db)) ∧
    (∀ row, db.inventory inv.itemID = some row → row.version = inv.version →
      (updateInventory db inv).fst = .ok () ∧
      (updateInventory db inv).snd.inventory inv.itemID =
        some { stock := inv.quantity, version := row.version + 1 } ∧
      (∀ k, k ≠ inv.itemID → (updateInventory db inv).snd.inventory k =
        db.inventory k) ∧
      (updateInventory db inv).snd.orders = db.orders) := by
  constructor
  · intro hmis
    unfold updateInventory
    split
    · rename_i row hrow
      simp [hmis row hrow]
    · rfl
  · intro row hrow hver
    refine ⟨?_, ?_, ?_, ?_⟩
    · simp [updateInventory, hrow, hver]
    · simp [updateInventory, hrow, hver]
    · intro k hk
      simp [updateInventory, hrow, hver, hk]
    · simp [updateInventory, hrow, hver]

/-- A compare-and-swap attempt carrying the matching version 7. -/
def invFresh : Inventory := { itemID := "iphone-15", quantity := 2, version := 7 }

/-- A compare-and-swap attempt carrying a stale version 6. -/
def invStale : Inventory := { itemID := "iphone-15", quantity := 2, version := 6 }

/-- Witness for C7: the matching-version branch and the stale-version
branch against the concrete durable store. -/
theorem updateInventory_cas_witness :
    dbA.inventory "iphone-15" = some { stock := 5, version := 7 } ∧
    (updateInventory dbA invFresh).fst = .ok () ∧
    (updateInventory dbA invFresh).snd.inventory "iphone-15" =
      some { stock := 2, version := 7 + 1 } ∧
    updateInventory dbA invStale = (.error .optimisticLock, dbA) := by
  have hok := (updateInventory_cas dbA invFresh).2 { stock := 5, version := 7 }
    rfl rfl
  have hfail := (updateInventory_cas dbA invStale).1
    (by intro row hrow; cases hrow.symm.trans rfl; decide)
  exact ⟨rfl, hok.1, hok.2.1, hfail⟩

/-! ### C8: worker compensation restores the counter -/

/-- CreateOrder only fails by rolling the transaction back: the error comes
with the store unchanged. -/
theorem createOrder_error_eq (db : DBState) (o : Order)
    (h : (createOrder db o).fst = .error .optimisticLock) :
    createOrder db o = (.error .optimisticLock, db) := by
  rcases hcase : db.inventory o.itemID with _ | inv
  · simp [createOrder, hcase]
  · by_cases hle : o.quantity ≤ inv.stock
    · simp [createOrder, hcase, hle] at h
    · simp [createOrder, hcase, hle]

/-- C8: when CreateOrder fails for a dequeued order, the worker invokes
IncrementStock exactly once with that order's item and quantity, leaving
the durable store unchanged; once that compensating increment lands, the
reservation counter is back at its pre-decrement value; and the loop
simply moves on to the rest of the queue — the order is neither retried
nor re-enqueued. -/
theorem worker_compensation (db : DBState) (cache : CacheState) (o : Order)
    (pre : Int)
    (hfail : (createOrder db o).fst = .error .optimisticLock)
    (hpre : cache.stock o.itemID = some (pre - o.quantity)) :
    processOrder db cache o = (db, incrementStock cache o.itemID o.quantity) ∧
    (processOrder db cache o).snd.stock o.itemID = some pre ∧
    (∀ rest, workerLoop db cache (o :: rest) =
      workerLoop db (incrementStock cache o.itemID o.quantity) rest) := by
  have heq := createOrder_error_eq db o hfail
  have hp : processOrder db cache o =
      (db, incrementStock cache o.itemID o.quantity) := by
    unfold processOrder
    rw [heq]
  refine ⟨hp, ?_, ?_⟩
  · rw [hp]
    show (incrementStock cache o.itemID o.quantity).stock o.itemID = some pre
    rw [incrementStock_stock, if_pos rfl, hpre]
    simp only [Option.getD_some, Option.some.injEq]
    ring
  · intro rest
    show workerLoop (processOrder db cache o).fst (processOrder db cache o).snd
      rest = _
    rw [hp]

/-- An order whose durable commit must fail: its item has no inventory
row in dbA. -/
def orderGhost : Order :=
  { id := "oid-3", userID := "user-1", itemID := "ghost-item", quantity := 2,
    status := .pending, createdAt := 0, updatedAt := 0 }

/-- Witness for C8: the concrete order against the absent inventory row,
with the counter sitting at 5 - 2 after its reservation. -/
theorem worker_compensation_witness :
    (createOrder dbA orderGhost).fst = .error .optimisticLock ∧
    cacheB.stock "ghost-item" = some (7 - 2) ∧
    processOrder dbA cacheB orderGhost =
      (dbA, incrementStock cacheB "ghost-item" 2) ∧
    (processOrder dbA cacheB orderGhost).snd.stock "ghost-item" = some 7 := by
  have h := worker_compensation dbA cacheB orderGhost 7 rfl (by decide)
  exact ⟨rfl, by decide, h.1, h.2.1⟩

/-! ### C9: closing the order queue -/

/-- C9 as stated is false: OrderService.Close runs Go's close on the order
channel, and a second invocation panics (close of closed channel) rather
than having no effect.  Counterexample at the concrete fresh channel. -/
theorem close_twice_panics :
    closeTwice { buffer := [], closed := false } =
      .error .closeOfClosedChannel := rfl

/-- C9 amended: Close is a one-time operation — the first invocation on an
open channel closes it, a second invocation faults with Go's
close-of-closed-channel panic; after the single close, once the buffered
orders are drained, a consumer observes end-of-stream rather than
blocking forever. -/
theorem close_once_then_end_of_stream (c : Chan) (h : c.closed = false) :
    closeChan c = .ok { c with closed := true } ∧
    closeChan { c with closed := true } = .error .closeOfClosedChannel ∧
    (∀ c2 : Chan, c2.closed = true → c2.buffer = [] →
      recvChan c2 = (.endOfStream, c2)) := by
  refine ⟨by simp [closeChan, h], by simp [closeChan], ?_⟩
  intro c2 hc2 hbuf
  simp [recvChan, hbuf, hc2]

/-- Witness for C9 (amended) at the concrete fresh channel. -/
theorem close_once_then_end_of_stream_witness :
    closeChan { buffer := [], closed := false } =
      .ok { buffer := [], closed := true } ∧
    closeChan { buffer := [], closed := true } =
      .error .closeOfClosedChannel ∧
    recvChan { buffer := [], closed := true } =
      (.endOfStream, { buffer := [], closed := true }) := by
  have h := close_once_then_end_of_stream { buffer := [], closed := false } rfl
  exact ⟨h.1, h.2.1, h.2.2 { buffer := [], closed := true } rfl rfl⟩

/-! ### Step lemmas for Purchase with a fresh marker -/

/-- SETNX on an absent key creates it and reports creation. -/
theorem setIdempotency_fresh (st : CacheState) (key : String)
    (h : st.idem key = false) :
    setIdempotency st key =
      (true, { st with idem := fun k => if k = key then true else st.idem k }) := by
  unfold setIdempotency
  rw [h]
  simp

/-- The decrement script when the guard holds. -/
theorem decrementStock_hit (st : CacheState) (i : String) (q c : Int)
    (hs : st.stock i = some c) (hq : q ≤ c) :
    decrementStock st i q =
      (true, { st with
        stock := fun k => if k = i then some (c - q) else st.stock k }) := by
  unfold decrementStock
  rw [hs]
  simp [hq]

/-- The decrement script when the counter is too small. -/
theorem decrementStock_miss (st : CacheState) (i : String) (q c : Int)
    (hs : st.stock i = some c) (hq : ¬ q ≤ c) :
    decrementStock st i q = (false, st) := by
  unfold decrementStock
  rw [hs]
  simp [hq]

/-- Purchase with a fresh marker and a sufficient counter: success, the
counter drops by the quantity, the marker is set, and the constructed
pending order is enqueued. -/
theorem purchase_fresh_enough (st : ServiceState) (r u i f : String)
    (q c : Int) (n : Nat)
    (hfresh : st.cache.idem ("idempotency:" ++ r) = false)
    (hstock : st.cache.stock i = some c) (hq : q ≤ c) :
    purchase st r u i q f n =
      (.success,
        { cache :=
            { stock := fun k => if k = i then some (c - q) else st.cache.stock k,
              idem := fun k =>
                if k = "idempotency:" ++ r then true else st.cache.idem k },
          queue := st.queue ++
            [{ id := f, userID := u, itemID := i, quantity := q,
               status := .pending, createdAt := n, updatedAt := n }] }) := by
  have h1 := setIdempotency_fresh st.cache ("idempotency:" ++ r) hfresh
  have h2 := decrementStock_hit
    { stock := st.cache.stock,
      idem := fun k => if k = "idempotency:" ++ r then true else st.cache.idem k }
    i q c hstock hq
  simp only [purchase, h1, h2]
  simp

/-- Purchase with a fresh marker and a short counter: InsufficientStock
while the marker is still consumed; the counter and the queue are
unchanged. -/
theorem purchase_fresh_short (st : ServiceState) (r u i f : String)
    (q c : Int) (n : Nat)
    (hfresh : st.cache.idem ("idempotency:" ++ r) = false)
    (hstock : st.cache.stock i = some c) (hq : ¬ q ≤ c) :
    purchase st r u i q f n =
      (.insufficientStock,
        { st with cache :=
            { stock := st.cache.stock,
              idem := fun k =>
                if k = "idempotency:" ++ r then true else st.cache.idem k } }) := by
  have h1 := setIdempotency_fresh st.cache ("idempotency:" ++ r) hfresh
  have h2 := decrementStock_miss
    { stock := st.cache.stock,
      idem := fun k => if k = "idempotency:" ++ r then true else st.cache.idem k }
    i q c hstock hq
  simp only [purchase, h1, h2]
  simp

/-! ### C10: no quantity validation at the service boundary -/

/-- C10: Purchase does not validate the quantity.  With a fresh request id,
an existing (hence, by the C2 invariant, non-negative) counter and any
quantity <= 0, the idempotency and decrement steps both run, the guard
current >= quantity holds, the call succeeds, the counter grows by
|quantity|, and an order carrying the non-positive quantity is
enqueued. -/
theorem purchase_no_quantity_validation (st : ServiceState)
    (requestID userID itemID freshID : String) (now : Nat) (q c : Int)
    (hq : q ≤ 0) (hc : 0 ≤ c)
    (hstock : st.cache.stock itemID = some c)
    (hfresh : st.cache.idem ("idempotency:" ++ requestID) = false) :
    (purchase st requestID userID itemID q freshID now).fst = .success ∧
    (purchase st requestID userID itemID q freshID now).snd.cache.stock itemID =
      some (c + |q|) ∧
    (purchase st requestID userID itemID q freshID now).snd.cache.idem
      ("idempotency:" ++ requestID) = true ∧
    (purchase st requestID userID itemID q freshID now).snd.queue =
      st.queue ++
        [{ id := freshID, userID := userID, itemID := itemID, quantity := q,
           status := .pending, createdAt := now, updatedAt := now }] := by
  have h := purchase_fresh_enough st requestID userID itemID freshID q c now
    hfresh hstock (le_trans hq hc)
  rw [h]
  have habs : c - q = c + |q| := by
    rw [abs_of_nonpos hq]
    ring
  refine ⟨rfl, ?_, by simp, rfl⟩
  simp [habs]

/-- Service state for the C10 witness: counter 5, no markers, empty queue. -/
def svcB : ServiceState := { cache := cacheB, queue := [] }

/-- Witness for C10: a purchase of quantity -3 against the counter at 5
succeeds and pushes the counter to 8. -/
theorem purchase_no_quantity_validation_witness :
    (-3 : Int) ≤ 0 ∧ svcB.cache.stock "iphone-15" = some 5 ∧
    (purchase svcB "req-9" "user-1" "iphone-15" (-3) "oid-9" 0).fst = .success ∧
    (purchase svcB "req-9" "user-1" "iphone-15" (-3) "oid-9" 0).snd.cache.stock
      "iphone-15" = some (5 + |(-3 : Int)|) := by
  have h := purchase_no_quantity_validation svcB "req-9" "user-1" "iphone-15"
    "oid-9" 0 (-3) 5 (by decide) (by decide) (by decide) (by decide)
  exact ⟨by decide, by decide, h.1, h.2.1⟩

/-! ### C1: no oversell across any serialization of concurrent purchases -/

/-- Prefixing with a fixed string is injective, so distinct request ids
address distinct idempotency keys. -/
theorem string_append_right_inj (s : String) {t1 t2 : String}
    (h : s ++ t1 = s ++ t2) : t1 = t2 := by
  have h2 : (s ++ t1).data = (s ++ t2).data := by rw [h]
  simp only [String.data_append] at h2
  exact String.ext (List.append_cancel_left h2)

/-- Induction backbone for no-oversell: running any list of single-unit
purchases with pairwise-distinct, fresh request ids against a counter at
S yields exactly min(R, S) successes, only success/InsufficientStock
results, and a final counter of S - min(R, S). -/
theorem runPurchases_spec (itemID : String) (reqs : List String) :
    ∀ (st : ServiceState) (S : Nat),
      reqs.Nodup →
      (∀ r ∈ reqs, st.cache.idem ("idempotency:" ++ r) = false) →
      st.cache.stock itemID = some (S : Int) →
      countSuccess (runPurchases itemID st reqs).fst = min reqs.length S ∧
      (∀ res ∈ (runPurchases itemID st reqs).fst,
        res = .success ∨ res = .insufficientStock) ∧
      (runPurchases itemID st reqs).snd.cache.stock itemID =
        some ((S : Int) - ((min reqs.length S : Nat) : Int)) := by
  induction reqs with
  | nil =>
    intro st S _ _ hstock
    refine ⟨by simp [runPurchases, countSuccess], by simp [runPurchases], ?_⟩
    simp [runPurchases, hstock]
  | cons r rest ih =>
    intro st S hnd hfresh hstock
    obtain ⟨hnotmem, hndr⟩ := List.nodup_cons.mp hnd
    have hfr : st.cache.idem ("idempotency:" ++ r) = false := hfresh r (by simp)
    by_cases hS : 1 ≤ S
    · have hq : (1 : Int) ≤ (S : Int) := by exact_mod_cast hS
      have hstep := purchase_fresh_enough st r r itemID r 1 (S : Int) 0
        hfr hstock hq
      have hfst : (purchase st r r itemID 1 r 0).fst = .success := by
        rw [hstep]
      have hcast : ((S - 1 : Nat) : Int) = (S : Int) - 1 := by
        push_cast [hS]
        ring
      have hfresh2 : ∀ r2 ∈ rest,
          (purchase st r r itemID 1 r 0).snd.cache.idem
            ("idempotency:" ++ r2) = false := by
        intro r2 hr2
        rw [hstep]
        have hne : ("idempotency:" ++ r2) ≠ ("idempotency:" ++ r) := by
          intro heq
          exact hnotmem ((string_append_right_inj _ heq) ▸ hr2)
        simp only [if_neg hne]
        exact hfresh r2 (by simp [hr2])
      have hstock2 : (purchase st r r itemID 1 r 0).snd.cache.stock itemID =
          some (((S - 1 : Nat) : Nat) : Int) := by
        rw [hstep, hcast]
        simp
      have hIH := ih (purchase st r r itemID 1 r 0).snd (S - 1)
        hndr hfresh2 hstock2
      refine ⟨?_, ?_, ?_⟩
      · simp only [runPurchases, hfst, countSuccess, List.length_cons]
        rw [hIH.1]
        omega
      · simp only [runPurchases, hfst, List.mem_cons]
        rintro res (rfl | hmem)
        · exact Or.inl rfl
        · exact hIH.2.1 res hmem
      · simp only [runPurchases, List.length_cons]
        rw [hIH.2.2]
        simp only [Option.some.injEq]
        omega
    · have hq : ¬ (1 : Int) ≤ (S : Int) := by exact_mod_cast hS
      have hstep := purchase_fresh_short st r r itemID r 1 (S : Int) 0
        hfr hstock hq
      have hfst : (purchase st r r itemID 1 r 0).fst = .insufficientStock := by
        rw [hstep]
      have hfresh2 : ∀ r2 ∈ rest,
          (purchase st r r itemID 1 r 0).snd.cache.idem
            ("idempotency:" ++ r2) = false := by
        intro r2 hr2
        rw [hstep]
        have hne : ("idempotency:" ++ r2) ≠ ("idempotency:" ++ r) := by
          intro heq
          exact hnotmem ((string_append_right_inj _ heq) ▸ hr2)
        simp only [if_neg hne]
        exact hfresh r2 (by simp [hr2])
      have hstock2 : (purchase st r r itemID 1 r 0).snd.cache.stock itemID =
          some ((S : Nat) : Int) := by
        rw [hstep]
        exact hstock
      have hIH := ih (purchase st r r itemID 1 r 0).snd S hndr hfresh2 hstock2
      refine ⟨?_, ?_, ?_⟩
      · simp only [runPurchases, hfst, countSuccess, List.length_cons]
        rw [hIH.1]
        omega
      · simp only [runPurchases, hfst, List.mem_cons]
        rintro res (rfl | hmem)
        · exact Or.inr rfl
        · exact hIH.2.1 res hmem
      · simp only [runPurchases, List.length_cons]
        rw [hIH.2.2]
        simp only [Option.some.injEq]
        omega

/-- C1: against a counter starting at S with no markers set, any
serialization of R concurrent single-unit purchases with distinct
request ids produces exactly min(R, S) successes, every other call
returns InsufficientStock, and the final counter is
max(0, S - successes). -/
theorem no_oversell (itemID : String) (reqs : List String)
    (st : ServiceState) (S : Nat)
    (hnd : reqs.Nodup)
    (hfresh : ∀ r ∈ reqs, st.cache.idem ("idempotency:" ++ r) = false)
    (hstock : st.cache.stock itemID = some (S : Int)) :
    countSuccess (runPurchases itemID st reqs).fst = min reqs.length S ∧
    (∀ res ∈ (runPurchases itemID st reqs).fst,
      res = .success ∨ res = .insufficientStock) ∧
    (runPurchases itemID st reqs).snd.cache.stock itemID =
      some (max 0 ((S : Int) -
        (countSuccess (runPurchases itemID st reqs).fst : Nat))) := by
  obtain ⟨h1, h2, h3⟩ := runPurchases_spec itemID reqs st S hnd hfresh hstock
  refine ⟨h1, h2, ?_⟩
  rw [h3, h1]
  simp only [Option.some.injEq]
  omega

/-- Service state for the C1 witness: item "iphone-15" at stock 2, no
markers, empty queue. -/
def svcC : ServiceState :=
  { cache := { stock := fun k => if k = "iphone-15" then some 2 else none,
               idem := fun _ => false },
    queue := [] }

/-- Witness for C1: three distinct fresh requests against stock 2 — the
theorem applies and its count evaluates to min 3 2 = 2 on this input. -/
theorem no_oversell_witness :
    (["req-1", "req-2", "req-3"] : List String).Nodup ∧
    svcC.cache.stock "iphone-15" = some ((2 : Nat) : Int) ∧
    countSuccess
      (runPurchases "iphone-15" svcC ["req-1", "req-2", "req-3"]).fst =
      min 3 2 ∧
    countSuccess
      (runPurchases "iphone-15" svcC ["req-1", "req-2", "req-3"]).fst = 2 := by
  have h := no_oversell "iphone-15" ["req-1", "req-2", "req-3"] svcC 2
    (by decide) (by decide) (by decide)
  exact ⟨by decide, by decide, h.1, by decide⟩
